import Mathlib

/- Shallow embedding of the Hospital Management System (src/app.py).
   The SQLite tables are modelled as lists of row records inside a Store value,
   the Flask session as an optional Session record, and each route handler as a
   pure function from the Store (plus the request data) to its result. -/

namespace HospitalApp

/- ### String primitives used by the embedded SQL operations -/

/-- Lexicographic (code-point) order on character lists, non-strict.  This is
the order SQLite applies to TEXT values under the default BINARY collation,
restated over code points (UTF-8 byte order coincides with code-point order). -/
def lexLe : List Char → List Char → Bool
  | [], _ => true
  | _ :: _, [] => false
  | a :: as, b :: bs => if a = b then lexLe as bs else decide (a < b)

/-- Lexicographic (code-point) order on character lists, strict. -/
def lexLt : List Char → List Char → Bool
  | _, [] => false
  | [], _ :: _ => true
  | a :: as, b :: bs => if a = b then lexLt as bs else decide (a < b)

/-- SQLite LIKE pattern matching against a whole string: the percent sign
matches any sequence of characters, the underscore matches any single
character, and every other pattern character matches case-insensitively in
ASCII (which is exactly the default case folding SQLite applies to LIKE). -/
def likeMatch : List Char → List Char → Bool
  | [], s => s.isEmpty
  | c :: ps, s =>
    if c = '%' then s.tails.any (fun t => likeMatch ps t)
    else if c = '_' then
      match s with
      | [] => false
      | _ :: s2 => likeMatch ps s2
    else
      match s with
      | [] => false
      | d :: s2 => (Char.toLower c == Char.toLower d) && likeMatch ps s2

/-- The SQL expression `s LIKE pat`. -/
def like (s pat : String) : Bool := likeMatch pat.toList s.toList

/- ### Password hashing (werkzeug.security collaborator)

Modelled from its contract: generate_password_hash produces a tagged one-way
credential and check_password_hash verifies a password against it, succeeding
exactly on the password that was hashed.  The method tag mirrors the shape of
the real output, so the credential is never equal to the plaintext. -/

def generate_password_hash (password : String) : String :=
  "scrypt:32768:8:1$" ++ password

def check_password_hash (stored password : String) : Bool :=
  stored == generate_password_hash password

/- ### Data model: the four tables of init_db, one structure per row -/

structure User where
  id : Nat
  username : String
  password_hash : String
  role : String
  full_name : String
  email : String
  created_at : String
deriving Repr, DecidableEq

structure Patient where
  id : Nat
  name : String
  age : Int
  gender : String
  address : String
  phone : String
deriving Repr, DecidableEq

structure Appointment where
  id : Nat
  patient_name : String
  doctor_name : String
  date : String
  time : String
deriving Repr, DecidableEq

structure MedicalRecord where
  id : Nat
  patient_id : Nat
  doctor_name : String
  diagnosis : String
  treatment : String
  prescription : String
  notes : String
  visit_date : String
  created_at : String
deriving Repr, DecidableEq

/-- The database.  Row order models rowid order, which is the order rows are
returned in when no ORDER BY clause applies.  next_user_id carries the
AUTOINCREMENT counter of the users table (the only table the modelled
operations insert into). -/
structure Store where
  users : List User
  patients : List Patient
  appointments : List Appointment
  medical_records : List MedicalRecord
  next_user_id : Nat
deriving Repr, DecidableEq

/- ### Session gate: login_required and admin_required decorators -/

/-- The session payload login stores: user_id, username, user_role, full_name. -/
structure Session where
  user_id : Nat
  username : String
  user_role : String
  full_name : String
deriving Repr, DecidableEq

/-- Redirect targets named by url_for in the routes the gate redirects to. -/
inductive Route where
  | login
  | dashboard
  | view_users
  | view_patients
  | view_appointments
  | view_medical_records
deriving Repr, DecidableEq

/-- Outcome of running a guarded handler: either the handler ran and produced a
value, or the gate redirected (carrying the target route and the flash text). -/
inductive GateResult (α : Type) where
  | handled (a : α)
  | redirect (target : Route) (notice : String)
deriving Repr, DecidableEq

/-- The login_required decorator: without a session, flash the log-in notice
and redirect to login; otherwise run the wrapped handler. -/
def login_required {α : Type} (f : Session → α) : Option Session → GateResult α
  | none => .redirect .login "Please log in to access this page."
  | some sess => .handled (f sess)

/-- The admin_required decorator: without a session, the same log-in redirect
as login_required; with a session whose user_role is not admin, flash the
permission notice and redirect to the dashboard; otherwise run the handler. -/
def admin_required {α : Type} (f : Session → α) : Option Session → GateResult α
  | none => .redirect .login "Please log in to access this page."
  | some sess =>
    if sess.user_role ≠ "admin" then .redirect .dashboard "Admin access required."
    else .handled (f sess)

/- ### login route (POST branch) -/

inductive LoginResult where
  | success (sess : Session)
  | failure
deriving Repr, DecidableEq

/-- The POST branch of the login route: select the first user row whose
username equals the submitted one; succeed exactly when such a row exists and
check_password_hash accepts, storing id, username, role and full_name in the
session. -/
def login (st : Store) (username password : String) : LoginResult :=
  match st.users.find? (fun u => u.username == username) with
  | some u =>
    if check_password_hash u.password_hash password then
      .success { user_id := u.id, username := u.username, user_role := u.role, full_name := u.full_name }
    else .failure
  | none => .failure

/- ### add_user route (POST branch) -/

inductive AddUserResult where
  | created (st : Store)
  | conflictError (st : Store)
deriving Repr, DecidableEq

/-- The POST branch of add_user: INSERT the new row with the hashed password.
The UNIQUE constraint on username makes the INSERT raise IntegrityError when
the username is already present; the statement then changes nothing and the
route flashes the conflict notice. -/
def add_user (st : Store) (username password role full_name email now : String) : AddUserResult :=
  if st.users.any (fun u => u.username == username) then .conflictError st
  else
    .created { st with
      users := st.users ++ [{
        id := st.next_user_id
        username := username
        password_hash := generate_password_hash password
        role := role
        full_name := full_name
        email := email
        created_at := now }]
      next_user_id := st.next_user_id + 1 }

/- ### edit_user route -/

inductive HttpMethod where
  | get
  | post
deriving Repr, DecidableEq

/-- What the edit_user route answers with, besides the (possibly updated)
store: the success redirect to view_users, the user-not-found redirect to
view_users, or the rendered edit form for a fetched user row. -/
inductive EditUserView where
  | successRedirect
  | notFoundRedirect
  | editForm (u : User)
deriving Repr, DecidableEq

/-- One row of the UPDATE in edit_user: the password_hash column is rewritten
with a fresh hash only when the submitted password field is truthy (present
and non-empty); otherwise the UPDATE statement does not mention it. -/
def applyUserEdit (username role full_name email : String) (password : Option String) (u : User) : User :=
  match password with
  | some p =>
    if p = "" then { u with username := username, role := role, full_name := full_name, email := email }
    else { u with username := username, password_hash := generate_password_hash p, role := role, full_name := full_name, email := email }
  | none => { u with username := username, role := role, full_name := full_name, email := email }

/-- The edit_user route.  POST runs `UPDATE users SET ... WHERE id=?` and
always answers with the success redirect, without checking how many rows
matched; the UNIQUE constraint on username aborts the statement (changing
nothing, falling through to the rendered form) when a row is updated to a
username another row already holds.  GET fetches the row and answers with the
not-found redirect when the id does not resolve. -/
def edit_user (st : Store) (id : Nat) (method : HttpMethod)
    (username role full_name email : String) (password : Option String) : Store × EditUserView :=
  match method with
  | .post =>
    if st.users.any (fun u => u.id == id) &&
       st.users.any (fun u => !(u.id == id) && u.username == username) then
      (st, match st.users.find? (fun u => u.id == id) with
           | some u => .editForm u
           | none => .notFoundRedirect)
    else
      ({ st with users := st.users.map (fun u =>
          if u.id = id then applyUserEdit username role full_name email password u else u) },
       .successRedirect)
  | .get =>
    match st.users.find? (fun u => u.id == id) with
    | none => (st, .notFoundRedirect)
    | some u => (st, .editForm u)

/- ### Orderings used by the ORDER BY clauses -/

/-- ORDER BY name (ascending) on patients, as a relation between an earlier
row and a later row of the result. -/
def patRel (a b : Patient) : Prop := lexLe a.name.toList b.name.toList = true

/-- ORDER BY date DESC, time DESC on appointments: an earlier result row has a
later date, or the same date and a time no earlier. -/
def apptRel (a b : Appointment) : Prop :=
  (lexLt b.date.toList a.date.toList || (b.date == a.date && lexLe b.time.toList a.time.toList)) = true

/-- ORDER BY visit_date DESC on medical records. -/
def recRel (a b : MedicalRecord) : Prop := lexLe b.visit_date.toList a.visit_date.toList = true

instance : DecidableRel patRel := fun _ _ => inferInstanceAs (Decidable (_ = true))

instance : DecidableRel apptRel := fun _ _ => inferInstanceAs (Decidable (_ = true))

instance : DecidableRel recRel := fun _ _ => inferInstanceAs (Decidable (_ = true))

/- ### view_patients, view_appointments, view_medical_record, patient_history -/

/-- The view_patients route: with a non-empty search term, keep the patients
whose name or phone matches LIKE with the term wrapped in percent signs;
always ORDER BY name. -/
def view_patients (st : Store) (search : String) : List Patient :=
  if search = "" then List.insertionSort patRel st.patients
  else
    List.insertionSort patRel (st.patients.filter (fun p =>
      like p.name ("%" ++ search ++ "%") || like p.phone ("%" ++ search ++ "%")))

/-- The view_appointments route: with a non-empty search term, keep the
appointments whose patient_name or doctor_name matches LIKE; always ORDER BY
date DESC, time DESC. -/
def view_appointments (st : Store) (search : String) : List Appointment :=
  if search = "" then List.insertionSort apptRel st.appointments
  else
    List.insertionSort apptRel (st.appointments.filter (fun a =>
      like a.patient_name ("%" ++ search ++ "%") || like a.doctor_name ("%" ++ search ++ "%")))

/-- The view_medical_record route: the single-row SELECT joins medical_records
to patients on patient_id, so the result also carries the patient name, and a
record whose patient_id resolves to no patient row yields no result. -/
def view_medical_record (st : Store) (id : Nat) : Option (MedicalRecord × String) :=
  match st.medical_records.find? (fun r => r.id == id) with
  | none => none
  | some r =>
    match st.patients.find? (fun p => p.id == r.patient_id) with
    | none => none
    | some p => some (r, p.name)

/-- The patient_history route: fetch the patient row by id (not found when it
does not resolve, regardless of any medical_records rows carrying that id),
and the medical records with that patient_id ORDER BY visit_date DESC. -/
def patient_history (st : Store) (patient_id : Nat) : Option (Patient × List MedicalRecord) :=
  match st.patients.find? (fun p => p.id == patient_id) with
  | none => none
  | some p =>
    some (p, List.insertionSort recRel (st.medical_records.filter (fun r => r.patient_id == patient_id)))

/- ### Spec-side definitions (from the wording of the specification) -/

/-- From the wording of the spec: the haystack contains the needle as a
case-insensitive (ASCII) substring — some suffix of the lowercased haystack
has the lowercased needle as a leading segment. -/
def containsCI (needle hay : String) : Bool :=
  (hay.toList.map Char.toLower).tails.any (fun t => (needle.toList.map Char.toLower).isPrefixOf t)

/-- A search term in which no character is a LIKE wildcard. -/
def noWildcard (s : String) : Bool :=
  s.toList.all (fun c => !(c == '%') && !(c == '_'))

/- ### Concrete stores used to evaluate the verified statements -/

def uAdmin : User :=
  { id := 1, username := "admin", password_hash := generate_password_hash "admin123"
    role := "admin", full_name := "System Administrator", email := "admin@hospital.com"
    created_at := "2024-01-01 00:00:00" }

def uBob : User :=
  { id := 2, username := "drbob", password_hash := generate_password_hash "bobpw"
    role := "doctor", full_name := "Bob Roy", email := "bob@hospital.com"
    created_at := "2024-01-02 00:00:00" }

def stAuth : Store :=
  { users := [uAdmin, uBob], patients := [], appointments := [], medical_records := []
    next_user_id := 3 }

def sessDoctor : Session :=
  { user_id := 2, username := "drbob", user_role := "doctor", full_name := "Bob Roy" }

def pAlice : Patient :=
  { id := 1, name := "Alice", age := 30, gender := "Female", address := "1 Elm St", phone := "0100" }

def pBob : Patient :=
  { id := 2, name := "Bob", age := 41, gender := "Male", address := "2 Oak St", phone := "555" }

def pDina : Patient :=
  { id := 3, name := "Dina", age := 28, gender := "Female", address := "3 Fir St", phone := "9ALI7" }

def stPatientsOne : Store :=
  { users := [], patients := [pBob], appointments := [], medical_records := [], next_user_id := 1 }

def stPatientsSearch : Store :=
  { users := [], patients := [pBob, pDina, pAlice], appointments := [], medical_records := []
    next_user_id := 1 }

def appt1 : Appointment :=
  { id := 1, patient_name := "Jane Doe", doctor_name := "Dr. Smith", date := "2024-01-01", time := "09:00" }

def appt2 : Appointment :=
  { id := 2, patient_name := "Joe Fox", doctor_name := "Dr. Lee", date := "2024-01-02", time := "09:00" }

def appt3 : Appointment :=
  { id := 3, patient_name := "Max Ray", doctor_name := "Dr. Wu", date := "2024-01-02", time := "11:00" }

def stAppts : Store :=
  { users := [], patients := [], appointments := [appt1, appt2, appt3], medical_records := []
    next_user_id := 1 }

def rec1 : MedicalRecord :=
  { id := 1, patient_id := 1, doctor_name := "Dr. Smith", diagnosis := "Flu", treatment := "Rest"
    prescription := "Tea", notes := "", visit_date := "2024-01-10", created_at := "2024-01-10 09:00:00" }

def rec2 : MedicalRecord :=
  { id := 2, patient_id := 1, doctor_name := "Dr. Lee", diagnosis := "Cold", treatment := "Syrup"
    prescription := "Syrup", notes := "", visit_date := "2024-02-05", created_at := "2024-02-05 09:00:00" }

def recOrphan : MedicalRecord :=
  { id := 3, patient_id := 2, doctor_name := "Dr. Wu", diagnosis := "Ache", treatment := "Gel"
    prescription := "Gel", notes := "", visit_date := "2024-03-01", created_at := "2024-03-01 09:00:00" }

def stHist : Store :=
  { users := [], patients := [pAlice], appointments := [], medical_records := [rec1, rec2, recOrphan]
    next_user_id := 1 }

def stOrphanOnly : Store :=
  { users := [], patients := [], appointments := [], medical_records := [recOrphan]
    next_user_id := 1 }

/- ### Helper lemmas on the embedded primitives -/

theorem lexLe_refl : ∀ a : List Char, lexLe a a = true
  | [] => rfl
  | _ :: as => by simpa [lexLe] using lexLe_refl as

theorem lexLe_total : ∀ a b : List Char, lexLe a b = true ∨ lexLe b a = true
  | [], _ => Or.inl rfl
  | _ :: _, [] => Or.inr rfl
  | a :: as, b :: bs => by
    by_cases h : a = b
    · subst h
      simpa [lexLe] using lexLe_total as bs
    · rcases lt_or_gt_of_ne h with h2 | h2
      · left
        simp [lexLe, h, h2]
      · right
        have hne : b ≠ a := fun hh => h hh.symm
        simp [lexLe, hne, h2]

theorem lexLe_trans : ∀ a b c : List Char, lexLe a b = true → lexLe b c = true → lexLe a c = true
  | [], _, _, _, _ => rfl
  | _ :: _, [], _, h, _ => by simp [lexLe] at h
  | _ :: _, _ :: _, [], _, h2 => by simp [lexLe] at h2
  | a :: as, b :: bs, c :: cs, h1, h2 => by
    by_cases hab : a = b <;> by_cases hbc : b = c
    · subst hab
      subst hbc
      simp only [lexLe, if_pos rfl] at h1 h2 ⊢
      exact lexLe_trans as bs cs h1 h2
    · subst hab
      simp only [lexLe, if_pos rfl] at h1
      simpa [lexLe, hbc] using h2
    · subst hbc
      simpa [lexLe, hab] using h1
    · simp only [lexLe, if_neg hab] at h1
      simp only [lexLe, if_neg hbc] at h2
      have h1b : a < b := by simpa using h1
      have h2b : b < c := by simpa using h2
      have hac : a < c := lt_trans h1b h2b
      simp [lexLe, ne_of_lt hac, hac]

theorem lexLe_iff : ∀ a b : List Char, lexLe a b = true ↔ (lexLt a b = true ∨ a = b)
  | [], [] => by simp [lexLe, lexLt]
  | [], _ :: _ => by simp [lexLe, lexLt]
  | _ :: _, [] => by simp [lexLe, lexLt]
  | a :: as, b :: bs => by
    by_cases h : a = b
    · subst h
      simpa [lexLe, lexLt] using lexLe_iff as bs
    · simp [lexLe, lexLt, h]

theorem lexLt_asymm : ∀ a b : List Char, lexLt a b = true → lexLt b a = true → False
  | _ :: _, [], h, _ => by simp [lexLt] at h
  | [], _, _, h2 => by simp [lexLt] at h2
  | a :: as, b :: bs, h1, h2 => by
    by_cases h : a = b
    · subst h
      simp only [lexLt, if_pos rfl] at h1 h2
      exact lexLt_asymm as bs h1 h2
    · have hne : b ≠ a := fun hh => h hh.symm
      simp only [lexLt, if_neg h] at h1
      simp only [lexLt, if_neg hne] at h2
      have h1b : a < b := by simpa using h1
      have h2b : b < a := by simpa using h2
      exact absurd h1b (not_lt_of_gt h2b)

theorem lexLt_trans (a b c : List Char) (h1 : lexLt a b = true) (h2 : lexLt b c = true) :
    lexLt a c = true := by
  have ha : lexLe a b = true := (lexLe_iff a b).mpr (Or.inl h1)
  have hb : lexLe b c = true := (lexLe_iff b c).mpr (Or.inl h2)
  have hac : lexLe a c = true := lexLe_trans a b c ha hb
  rcases (lexLe_iff a c).mp hac with h | h
  · exact h
  · subst h
    exact absurd h2 (fun hf => lexLt_asymm a b h1 hf)

theorem lexLt_trichotomy (a b : List Char) :
    lexLt a b = true ∨ a = b ∨ lexLt b a = true := by
  rcases lexLe_total a b with h | h
  · rcases (lexLe_iff a b).mp h with h | h
    · exact Or.inl h
    · exact Or.inr (Or.inl h)
  · rcases (lexLe_iff b a).mp h with h | h
    · exact Or.inr (Or.inr h)
    · exact Or.inr (Or.inl h.symm)

theorem string_toList_inj {s t : String} (h : s.toList = t.toList) : s = t := by
  cases s
  cases t
  simp only [String.toList] at h
  subst h
  rfl

/- ### Instances making the ORDER BY relations sortable -/

instance : IsTotal Patient patRel :=
  ⟨fun a b => lexLe_total a.name.toList b.name.toList⟩

instance : IsTrans Patient patRel :=
  ⟨fun a b c => lexLe_trans a.name.toList b.name.toList c.name.toList⟩

instance : IsTotal MedicalRecord recRel :=
  ⟨fun a b => lexLe_total b.visit_date.toList a.visit_date.toList⟩

instance : IsTrans MedicalRecord recRel :=
  ⟨fun a b c h1 h2 => lexLe_trans c.visit_date.toList b.visit_date.toList a.visit_date.toList h2 h1⟩

theorem apptRel_iff (a b : Appointment) :
    apptRel a b ↔ (lexLt b.date.toList a.date.toList = true ∨
      (b.date = a.date ∧ lexLe b.time.toList a.time.toList = true)) := by
  unfold apptRel
  simp [Bool.or_eq_true, Bool.and_eq_true]

instance : IsTotal Appointment apptRel := by
  refine ⟨fun a b => ?_⟩
  rcases lexLt_trichotomy b.date.toList a.date.toList with h | h | h
  · exact Or.inl ((apptRel_iff a b).mpr (Or.inl h))
  · have hd : b.date = a.date := string_toList_inj h
    rcases lexLe_total b.time.toList a.time.toList with ht | ht
    · exact Or.inl ((apptRel_iff a b).mpr (Or.inr ⟨hd, ht⟩))
    · exact Or.inr ((apptRel_iff b a).mpr (Or.inr ⟨hd.symm, ht⟩))
  · exact Or.inr ((apptRel_iff b a).mpr (Or.inl h))

instance : IsTrans Appointment apptRel := by
  refine ⟨fun a b c h1 h2 => ?_⟩
  rcases (apptRel_iff a b).mp h1 with hd1 | ⟨hd1, ht1⟩ <;>
    rcases (apptRel_iff b c).mp h2 with hd2 | ⟨hd2, ht2⟩
  · exact (apptRel_iff a c).mpr (Or.inl (lexLt_trans _ _ _ hd2 hd1))
  · have hceq : c.date.toList = b.date.toList := by rw [hd2]
    exact (apptRel_iff a c).mpr (Or.inl (by rw [hceq]; exact hd1))
  · have hbeq : b.date.toList = a.date.toList := by rw [hd1]
    rw [hbeq] at hd2
    exact (apptRel_iff a c).mpr (Or.inl hd2)
  · exact (apptRel_iff a c).mpr (Or.inr ⟨hd2.trans hd1, lexLe_trans _ _ _ ht2 ht1⟩)

/- ### Generic list facts shared by the claim proofs -/

theorem find?_key_eq {α κ : Type} [DecidableEq κ] (key : α → κ) :
    ∀ {l : List α}, l.Pairwise (fun a b => key a ≠ key b) → ∀ {u : α}, u ∈ l →
      l.find? (fun v => key v == key u) = some u := by
  intro l hl u hu
  induction l with
  | nil => cases hu
  | cons a l ih =>
    rcases List.mem_cons.mp hu with h | h
    · subst h
      simp [List.find?]
    · have hne : key a ≠ key u := (List.pairwise_cons.mp hl).1 u h
      have hfa : (key a == key u) = false := by simpa using hne
      rw [List.find?_cons_of_neg _ (by simp [hfa])]
      exact ih (List.pairwise_cons.mp hl).2 h

theorem find?_map_by_id {id : Nat} (g : User → User) (hg : ∀ v, (g v).id = v.id) :
    ∀ {l : List User}, l.Pairwise (fun a b => a.id ≠ b.id) →
      ∀ {u : User}, u ∈ l → u.id = id →
        (l.map g).find? (fun v => v.id == id) = some (g u) := by
  intro l hl u hu huid
  induction l with
  | nil => cases hu
  | cons a l ih =>
    rcases List.mem_cons.mp hu with h | h
    · subst h
      have hb : ((g u).id == id) = true := by simp [hg, huid]
      simp [List.map_cons, List.find?, hb]
    · have hane : a.id ≠ u.id := (List.pairwise_cons.mp hl).1 u h
      have hgne : (g a).id ≠ id := by
        rw [hg, ← huid]
        exact hane
      rw [List.map_cons, List.find?_cons_of_neg _ (by simp [hgne])]
      exact ih (List.pairwise_cons.mp hl).2 h

theorem map_eq_self_of {α : Type} {l : List α} {f : α → α} (h : ∀ x ∈ l, f x = x) :
    l.map f = l := by
  induction l with
  | nil => rfl
  | cons a l ih =>
    rw [List.map_cons, h a (List.mem_cons_self a l), ih (fun x hx => h x (List.mem_cons_of_mem a hx))]

theorem tails_map {α β : Type} (f : α → β) (l : List α) :
    (l.map f).tails = l.tails.map (List.map f) := by
  induction l with
  | nil => rfl
  | cons a l ih => simp [List.tails, ih]

/- ### Facts about the hashing model -/

theorem generate_password_hash_inj {p q : String}
    (h : generate_password_hash p = generate_password_hash q) : p = q := by
  unfold generate_password_hash at h
  have hd := congrArg String.data h
  simp only [String.data_append] at hd
  exact string_toList_inj (List.append_cancel_left hd)

theorem check_password_hash_gen (p q : String) :
    check_password_hash (generate_password_hash p) q = true ↔ p = q := by
  unfold check_password_hash
  rw [beq_iff_eq]
  constructor
  · intro h
    exact generate_password_hash_inj h
  · intro h
    rw [h]

theorem generate_password_hash_ne (p : String) : generate_password_hash p ≠ p := by
  intro h
  have hl := congrArg String.length h
  rw [generate_password_hash, String.length_append] at hl
  have h17 : ("scrypt:32768:8:1$" : String).length = 17 := rfl
  rw [h17] at hl
  omega

/- ### Facts about LIKE pattern matching -/

theorem tails_any_isEmpty : ∀ s : List Char, s.tails.any (fun t => t.isEmpty) = true
  | [] => rfl
  | a :: s => by simp [List.tails, tails_any_isEmpty s]

theorem likeMatch_pct (s : List Char) : likeMatch ['%'] s = true := by
  simp [likeMatch, tails_any_isEmpty]

theorem likeMatch_append_pct :
    ∀ t : List Char, t.all (fun c => !(c == '%') && !(c == '_')) = true →
      ∀ s : List Char, likeMatch (t ++ ['%']) s = (t.map Char.toLower).isPrefixOf (s.map Char.toLower)
  | [], _, s => by simp [likeMatch_pct s, List.isPrefixOf]
  | c :: t, hw, s => by
    have hw2 := hw
    simp only [List.all_cons, Bool.and_eq_true, Bool.not_eq_true', beq_eq_false_iff_ne, ne_eq] at hw2
    obtain ⟨⟨hc1, hc2⟩, hwt⟩ := hw2
    cases s with
    | nil => simp [likeMatch, hc1, hc2, List.isPrefixOf]
    | cons d s2 =>
      simp only [List.cons_append, likeMatch, if_neg hc1, if_neg hc2, List.map_cons,
        List.append_eq]
      rw [likeMatch_append_pct t hwt s2]
      simp [List.isPrefixOf]

theorem pattern_toList (search : String) :
    ("%" ++ search ++ "%").toList = '%' :: (search.toList ++ ['%']) := by
  show ("%" ++ search ++ "%").data = '%' :: (search.data ++ ['%'])
  simp [String.data_append]

theorem like_wrap (search s : String) (hw : noWildcard search = true) :
    like s ("%" ++ search ++ "%") = containsCI search s := by
  unfold like containsCI
  rw [pattern_toList]
  have hstep : likeMatch ('%' :: (search.toList ++ ['%'])) s.toList
      = s.toList.tails.any (fun t => likeMatch (search.toList ++ ['%']) t) := by
    simp [likeMatch]
  rw [hstep]
  have hfun : (fun t => likeMatch (search.toList ++ ['%']) t)
      = (fun t : List Char => (search.toList.map Char.toLower).isPrefixOf (t.map Char.toLower)) := by
    funext t
    exact likeMatch_append_pct search.toList (by simpa [noWildcard] using hw) t
  rw [hfun, tails_map Char.toLower s.toList, List.any_map]
  rfl

/- ### Claim theorems -/

/-- C2: a request carrying a valid session whose role is not admin is rejected
by admin_required with a redirect to the dashboard (not to the login page)
together with the permission notice; the guarded handler is never run — the
result is that same redirect for every handler — and the redirect target
differs from the login target used for unauthenticated requests. -/
theorem C2_admin_required_rejects_non_admin {α : Type} (sess : Session)
    (h : sess.user_role ≠ "admin") :
    (∀ f : Session → α, admin_required f (some sess) = .redirect .dashboard "Admin access required.")
    ∧ (∀ f : Session → α, login_required f none = .redirect .login "Please log in to access this page.")
    ∧ Route.dashboard ≠ Route.login := by
  refine ⟨fun f => ?_, fun f => rfl, by decide⟩
  simp [admin_required, h]

/-- C2 witness: a doctor session is redirected to the dashboard with the
permission notice, while the missing session is redirected to login, and the
two targets differ. -/
theorem C2_witness :
    admin_required (fun _ : Session => 0) (some sessDoctor)
        = .redirect .dashboard "Admin access required."
    ∧ login_required (fun _ : Session => 0) (none : Option Session)
        = .redirect .login "Please log in to access this page."
    ∧ Route.dashboard ≠ Route.login := by
  obtain ⟨h1, h2, h3⟩ := C2_admin_required_rejects_non_admin (α := Nat) sessDoctor (by decide)
  exact ⟨h1 _, h2 _, h3⟩

/-- C9: for every guarded handler, a request with no session at all is
rejected by admin_required with a redirect to the login page carrying the
log-in notice — exactly the rejection login_required produces — so the admin
gate applies the unauthenticated check before any role check. -/
theorem C9_admin_required_no_session {α : Type} (f g : Session → α) :
    admin_required f none = .redirect .login "Please log in to access this page."
    ∧ admin_required f none = login_required g none :=
  ⟨rfl, rfl⟩

/-- C1: login fails exactly when no user row carries the submitted username or
check_password_hash rejects the password against the stored hash of the row
that carries it; on success the session payload holds exactly that row's id,
username, role and full_name.  Usernames are pairwise distinct by the UNIQUE
schema constraint, taken here as a hypothesis. -/
theorem C1_login_correct (st : Store) (username password : String)
    (huniq : st.users.Pairwise (fun a b => a.username ≠ b.username)) :
    (login st username password = .failure ↔
      (∀ u ∈ st.users, u.username ≠ username) ∨
      (∃ u ∈ st.users, u.username = username ∧ check_password_hash u.password_hash password = false))
    ∧ (∀ u ∈ st.users, u.username = username →
        check_password_hash u.password_hash password = true →
        login st username password
          = .success { user_id := u.id, username := u.username, user_role := u.role, full_name := u.full_name }) := by
  have hsym : Symmetric (fun a b : User => a.username ≠ b.username) :=
    fun a b h he => h he.symm
  cases hf : st.users.find? (fun v => v.username == username) with
  | none =>
    have hnone : ∀ u ∈ st.users, u.username ≠ username := by
      intro u hu
      have := List.find?_eq_none.mp hf u hu
      simpa using this
    refine ⟨⟨fun _ => Or.inl hnone, fun _ => by simp [login, hf]⟩, fun u hu hname _ => ?_⟩
    exact absurd hname (hnone u hu)
  | some v =>
    have hv_mem : v ∈ st.users := List.mem_of_find?_eq_some hf
    have hv_name : v.username = username := by simpa using List.find?_some hf
    have huv_eq : ∀ {u : User}, u ∈ st.users → u.username = username → u = v := by
      intro u hu hname
      by_contra hne
      exact (huniq.forall hsym hu hv_mem hne) (hname.trans hv_name.symm)
    by_cases hchk : check_password_hash v.password_hash password = true
    · have hlogin : login st username password
          = .success { user_id := v.id, username := v.username, user_role := v.role, full_name := v.full_name } := by
        simp [login, hf, hchk]
      refine ⟨⟨fun hfail => ?_, fun hr => ?_⟩, fun u hu hname _ => ?_⟩
      · rw [hlogin] at hfail
        cases hfail
      · rcases hr with hnone | ⟨u, hu, hname, hcf⟩
        · exact absurd hv_name (hnone v hv_mem)
        · have huv := huv_eq hu hname
          rw [huv, hchk] at hcf
          cases hcf
      · have huv := huv_eq hu hname
        rw [huv]
        exact hlogin
    · have hchkf : check_password_hash v.password_hash password = false := by
        simpa using hchk
      have hlogin : login st username password = .failure := by simp [login, hf, hchkf]
      refine ⟨⟨fun _ => Or.inr ⟨v, hv_mem, hv_name, hchkf⟩, fun _ => hlogin⟩, fun u hu hname hcu => ?_⟩
      have huv := huv_eq hu hname
      rw [huv, hchkf] at hcu
      cases hcu

/-- C1 witness: in the seeded store, the drbob user logs in with the hashed
password and the session carries exactly its row; the wrong password and an
unknown username both fail. -/
theorem C1_witness :
    stAuth.users.Pairwise (fun a b => a.username ≠ b.username)
    ∧ login stAuth "drbob" "bobpw"
        = .success { user_id := 2, username := "drbob", user_role := "doctor", full_name := "Bob Roy" }
    ∧ login stAuth "drbob" "wrong" = .failure
    ∧ login stAuth "nobody" "bobpw" = .failure := by
  have hp : stAuth.users.Pairwise (fun a b => a.username ≠ b.username) := by decide
  refine ⟨hp, ?_, ?_, ?_⟩
  · exact (C1_login_correct stAuth "drbob" "bobpw" hp).2 uBob (by decide) (by decide) (by decide)
  · exact (C1_login_correct stAuth "drbob" "wrong" hp).1.mpr
      (Or.inr ⟨uBob, by decide, by decide, by decide⟩)
  · exact (C1_login_correct stAuth "nobody" "bobpw" hp).1.mpr (Or.inl (by decide))

/-- C3: add_user with an already-present username answers Conflict and hands
back the store unchanged — no row inserted, no row modified; with a fresh
username it appends exactly one user row whose stored credential is the hash
of the supplied password, and that hash is never the plaintext itself. -/
theorem C3_add_user_conflict_or_insert (st : Store)
    (username password role full_name email now : String) :
    ((∃ u ∈ st.users, u.username = username) →
      add_user st username password role full_name email now = .conflictError st)
    ∧ ((∀ u ∈ st.users, u.username ≠ username) →
      add_user st username password role full_name email now
        = .created { st with
            users := st.users ++ [{
              id := st.next_user_id, username := username
              password_hash := generate_password_hash password
              role := role, full_name := full_name, email := email, created_at := now }]
            next_user_id := st.next_user_id + 1 }
      ∧ generate_password_hash password ≠ password) := by
  constructor
  · rintro ⟨u, hu, hname⟩
    have hany : st.users.any (fun v => v.username == username) = true := by
      rw [List.any_eq_true]
      exact ⟨u, hu, by simp [hname]⟩
    simp [add_user, hany]
  · intro hnone
    have hany : st.users.any (fun v => v.username == username) = false := by
      rw [Bool.eq_false_iff]
      intro hta
      rw [List.any_eq_true] at hta
      obtain ⟨u, hu, hb⟩ := hta
      exact hnone u hu (by simpa using hb)
    refine ⟨?_, generate_password_hash_ne password⟩
    simp [add_user, hany]

/-- C3 witness: drbob already exists so inserting it conflicts and the store
is handed back unchanged; carol is fresh so her row is appended with the
hashed (non-plaintext) credential. -/
theorem C3_witness :
    add_user stAuth "drbob" "pw" "doctor" "D" "d@h" "t" = .conflictError stAuth
    ∧ add_user stAuth "carol" "cpw" "receptionist" "Carol" "c@h" "t"
        = .created { stAuth with
            users := stAuth.users ++ [{
              id := 3, username := "carol"
              password_hash := generate_password_hash "cpw"
              role := "receptionist", full_name := "Carol", email := "c@h", created_at := "t" }]
            next_user_id := 4 }
    ∧ generate_password_hash "cpw" ≠ "cpw" := by
  obtain ⟨hc, _⟩ := C3_add_user_conflict_or_insert stAuth "drbob" "pw" "doctor" "D" "d@h" "t"
  obtain ⟨_, hi⟩ := C3_add_user_conflict_or_insert stAuth "carol" "cpw" "receptionist" "Carol" "c@h" "t"
  obtain ⟨hi1, hi2⟩ := hi (by decide)
  exact ⟨hc ⟨uBob, by decide, rfl⟩, hi1, hi2⟩

/-- C4: for an existing user id (primary-key-distinct ids, and a new username
that does not collide with a different row, so the UNIQUE constraint does not
abort the UPDATE), the update path of edit_user without a new password —
field absent or submitted empty — replaces username, role, full_name and
email and keeps the stored password_hash byte-for-byte, so every password the
old hash accepted is still accepted; with a non-empty new password the stored
hash becomes the fresh hash, which the new password verifies and every other
password fails. -/
theorem C4_edit_user_password_frame (st : Store) (id : Nat)
    (username role full_name email : String)
    (hids : st.users.Pairwise (fun a b => a.id ≠ b.id))
    (u : User) (hu : u ∈ st.users) (huid : u.id = id)
    (hnc : ∀ v ∈ st.users, v.id ≠ id → v.username ≠ username) :
    (∀ password : Option String, password = none ∨ password = some "" →
      (edit_user st id .post username role full_name email password).fst.users.find?
          (fun v => v.id == id)
        = some { id := u.id, username := username, password_hash := u.password_hash
                 role := role, full_name := full_name, email := email
                 created_at := u.created_at }
      ∧ ∀ old : String, check_password_hash u.password_hash old = true →
          check_password_hash
            ({ id := u.id, username := username, password_hash := u.password_hash
               role := role, full_name := full_name, email := email
               created_at := u.created_at } : User).password_hash old = true)
    ∧ (∀ p : String, p ≠ "" →
      (edit_user st id .post username role full_name email (some p)).fst.users.find?
          (fun v => v.id == id)
        = some { id := u.id, username := username
                 password_hash := generate_password_hash p
                 role := role, full_name := full_name, email := email
                 created_at := u.created_at }
      ∧ check_password_hash (generate_password_hash p) p = true
      ∧ ∀ old : String, old ≠ p → check_password_hash (generate_password_hash p) old = false) := by
  have hany2 : st.users.any (fun v => !(v.id == id) && v.username == username) = false := by
    rw [Bool.eq_false_iff]
    intro hta
    rw [List.any_eq_true] at hta
    obtain ⟨v, hv, hb⟩ := hta
    rw [Bool.and_eq_true] at hb
    have hvid : v.id ≠ id := by simpa using hb.1
    exact hnc v hv hvid (by simpa using hb.2)
  have hpost : ∀ password : Option String,
      edit_user st id .post username role full_name email password
        = ({ st with users := st.users.map (fun v =>
              if v.id = id then applyUserEdit username role full_name email password v else v) },
           .successRedirect) := by
    intro password
    simp [edit_user, hany2]
  constructor
  · rintro password (rfl | rfl)
    · have hg : ∀ v : User,
          ((if v.id = id then applyUserEdit username role full_name email none v else v)).id = v.id := by
        intro v
        by_cases hvid : v.id = id <;> simp [hvid, applyUserEdit]
      refine ⟨?_, fun old h => h⟩
      rw [hpost]
      have := find?_map_by_id
        (fun v => if v.id = id then applyUserEdit username role full_name email none v else v)
        hg hids hu huid
      rw [this]
      simp [huid, applyUserEdit]
    · have hg : ∀ v : User,
          ((if v.id = id then applyUserEdit username role full_name email (some "") v else v)).id = v.id := by
        intro v
        by_cases hvid : v.id = id <;> simp [hvid, applyUserEdit]
      refine ⟨?_, fun old h => h⟩
      rw [hpost]
      have := find?_map_by_id
        (fun v => if v.id = id then applyUserEdit username role full_name email (some "") v else v)
        hg hids hu huid
      rw [this]
      simp [huid, applyUserEdit]
  · intro p hp
    have hg : ∀ v : User,
        ((if v.id = id then applyUserEdit username role full_name email (some p) v else v)).id = v.id := by
      intro v
      by_cases hvid : v.id = id <;> simp [hvid, applyUserEdit, hp]
    refine ⟨?_, (check_password_hash_gen p p).mpr rfl, fun old hold => ?_⟩
    · rw [hpost]
      have := find?_map_by_id
        (fun v => if v.id = id then applyUserEdit username role full_name email (some p) v else v)
        hg hids hu huid
      rw [this]
      simp [huid, applyUserEdit, hp]
    · rw [Bool.eq_false_iff]
      intro hta
      exact hold ((check_password_hash_gen p old).mp hta).symm

/-- C4 witness: editing the drbob row (id 2) without a password keeps the
stored hash of bobpw; editing it with newpw stores the hash of newpw, which
newpw verifies and bobpw fails. -/
theorem C4_witness :
    ((edit_user stAuth 2 .post "bob2" "admin" "Bob II" "b2@h" none).fst.users.find?
        (fun v => v.id == 2)
      = some { id := 2, username := "bob2", password_hash := generate_password_hash "bobpw"
               role := "admin", full_name := "Bob II", email := "b2@h"
               created_at := "2024-01-02 00:00:00" })
    ∧ ((edit_user stAuth 2 .post "bob2" "admin" "Bob II" "b2@h" (some "newpw")).fst.users.find?
        (fun v => v.id == 2)
      = some { id := 2, username := "bob2", password_hash := generate_password_hash "newpw"
               role := "admin", full_name := "Bob II", email := "b2@h"
               created_at := "2024-01-02 00:00:00" })
    ∧ check_password_hash (generate_password_hash "newpw") "newpw" = true
    ∧ check_password_hash (generate_password_hash "newpw") "bobpw" = false := by
  obtain ⟨hno, hyes⟩ := C4_edit_user_password_frame stAuth 2 "bob2" "admin" "Bob II" "b2@h"
    (by decide) uBob (by decide) (by decide) (by decide)
  obtain ⟨hfind, _⟩ := hno none (Or.inl rfl)
  obtain ⟨hfind2, hchk1, hchk2⟩ := hyes "newpw" (by decide)
  exact ⟨hfind, hfind2, hchk1, hchk2 "bobpw" (by decide)⟩

/-- C5 counterexample: in stAuth no user has id 99, yet the update (POST)
path of edit_user at id 99 reports the success redirect, not the not-found
redirect, leaving the store unchanged — refuting the claim that updateUser
on an unresolved id returns NotFound. -/
theorem C5_counterexample :
    (∀ u ∈ stAuth.users, u.id ≠ 99)
    ∧ edit_user stAuth 99 .post "x" "doctor" "X" "x@h" none = (stAuth, .successRedirect)
    ∧ EditUserView.successRedirect ≠ EditUserView.notFoundRedirect :=
  ⟨by decide, by decide, by decide⟩

/-- C5 amended: for an id resolving to no user, only the GET (fetch-for-edit)
path of edit_user answers the not-found redirect; the POST (update) path runs
a no-op UPDATE and reports success, handing back the store unchanged. -/
theorem C5_edit_user_missing_id (st : Store) (id : Nat)
    (h : ∀ u ∈ st.users, u.id ≠ id)
    (username role full_name email : String) (password : Option String) :
    (edit_user st id .get username role full_name email password).snd = .notFoundRedirect
    ∧ edit_user st id .post username role full_name email password = (st, .successRedirect) := by
  have hfind : st.users.find? (fun u => u.id == id) = none := by
    rw [List.find?_eq_none]
    intro u hu
    simp [h u hu]
  have hany : st.users.any (fun u => u.id == id) = false := by
    rw [Bool.eq_false_iff]
    intro hta
    rw [List.any_eq_true] at hta
    obtain ⟨u, hu, hb⟩ := hta
    exact h u hu (by simpa using hb)
  have hmap : st.users.map (fun u =>
      if u.id = id then applyUserEdit username role full_name email password u else u) = st.users :=
    map_eq_self_of (fun u hu => by simp [h u hu])
  constructor
  · simp [edit_user, hfind]
  · simp [edit_user, hany, hmap]

/-- C5 witness for the amended statement, at id 99 over the seeded store. -/
theorem C5_witness :
    (∀ u ∈ stAuth.users, u.id ≠ 99)
    ∧ (edit_user stAuth 99 .get "x" "doctor" "X" "x@h" none).snd = .notFoundRedirect
    ∧ edit_user stAuth 99 .post "x" "doctor" "X" "x@h" none = (stAuth, .successRedirect) := by
  have h : ∀ u ∈ stAuth.users, u.id ≠ 99 := by decide
  obtain ⟨h1, h2⟩ := C5_edit_user_missing_id stAuth 99 h "x" "doctor" "X" "x@h" none
  exact ⟨h, h1, h2⟩

/-- C6: patient_history answers NotFound exactly when no patient row carries
the id — with no condition on medical_records, so orphaned records never make
it resolve — and otherwise hands back that patient together with precisely
the records carrying that patient_id, ordered by visit_date descending. -/
theorem C6_patient_history (st : Store) (pid : Nat) :
    (patient_history st pid = none ↔ ∀ p ∈ st.patients, p.id ≠ pid)
    ∧ (∀ (p : Patient) (rs : List MedicalRecord),
        patient_history st pid = some (p, rs) →
          p ∈ st.patients ∧ p.id = pid
          ∧ rs.Perm (st.medical_records.filter (fun r => r.patient_id == pid))
          ∧ List.Pairwise recRel rs) := by
  cases hf : st.patients.find? (fun q => q.id == pid) with
  | none =>
    have hnone : ∀ p ∈ st.patients, p.id ≠ pid := by
      intro p hp
      have := List.find?_eq_none.mp hf p hp
      simpa using this
    refine ⟨⟨fun _ => hnone, fun _ => by simp [patient_history, hf]⟩, fun p rs hsome => ?_⟩
    simp [patient_history, hf] at hsome
  | some q =>
    have hq_mem : q ∈ st.patients := List.mem_of_find?_eq_some hf
    have hq_id : q.id = pid := by simpa using List.find?_some hf
    have hph : patient_history st pid
        = some (q, List.insertionSort recRel
            (st.medical_records.filter (fun r => r.patient_id == pid))) := by
      simp [patient_history, hf]
    refine ⟨⟨fun hn => ?_, fun hall => absurd hq_id (hall q hq_mem)⟩, fun p rs hsome => ?_⟩
    · rw [hph] at hn
      cases hn
    · rw [hph] at hsome
      injection hsome with h
      cases h
      exact ⟨hq_mem, hq_id, List.perm_insertionSort recRel _, List.sorted_insertionSort recRel _⟩

/-- C6 witness: in stHist patient id 2 is absent (only an orphaned record
carries that patient_id) so the history is NotFound; for patient id 1 the
history is pAlice with her two records, newest visit first. -/
theorem C6_witness :
    patient_history stHist 2 = none
    ∧ (pAlice ∈ stHist.patients ∧ pAlice.id = 1
        ∧ List.Perm [rec2, rec1] (stHist.medical_records.filter (fun r => r.patient_id == 1))
        ∧ List.Pairwise recRel [rec2, rec1]) := by
  refine ⟨(C6_patient_history stHist 2).1.mpr (by decide), ?_⟩
  exact (C6_patient_history stHist 1).2 pAlice [rec2, rec1] (by decide)

/-- C7 counterexample: over the store holding only Bob (phone 555), the
search term consisting of one underscore — a LIKE wildcard the route passes
through unescaped — returns Bob although neither his name nor his phone
contains an underscore as a substring, refuting the claim as quantified over
every search term. -/
theorem C7_counterexample :
    view_patients stPatientsOne "_" = [pBob]
    ∧ containsCI "_" pBob.name = false
    ∧ containsCI "_" pBob.phone = false :=
  ⟨by decide, by decide, by decide⟩

/-- C7 amended: for every search term free of the LIKE wildcard characters
percent and underscore, view_patients keeps exactly the patients whose name
or phone contains the term as a case-insensitive (ASCII) substring, the empty
term keeps all patients, and both results are ordered by name ascending.
Terms containing a wildcard are interpreted by LIKE instead, as the
counterexample shows. -/
theorem C7_view_patients_search (st : Store) (search : String)
    (hw : noWildcard search = true) (hne : search ≠ "") :
    (view_patients st search).Perm
        (st.patients.filter (fun p => containsCI search p.name || containsCI search p.phone))
    ∧ List.Pairwise patRel (view_patients st search)
    ∧ (view_patients st "").Perm st.patients
    ∧ List.Pairwise patRel (view_patients st "") := by
  have hfil : st.patients.filter (fun p =>
        like p.name ("%" ++ search ++ "%") || like p.phone ("%" ++ search ++ "%"))
      = st.patients.filter (fun p => containsCI search p.name || containsCI search p.phone) := by
    apply List.filter_congr
    intro p _
    rw [like_wrap search p.name hw, like_wrap search p.phone hw]
  refine ⟨?_, ?_, ?_, ?_⟩
  · rw [view_patients, if_neg hne, hfil]
    exact List.perm_insertionSort patRel _
  · rw [view_patients, if_neg hne]
    exact List.sorted_insertionSort patRel _
  · rw [view_patients, if_pos rfl]
    exact List.perm_insertionSort patRel _
  · rw [view_patients, if_pos rfl]
    exact List.sorted_insertionSort patRel _

/-- C7 witness: searching ali over stPatientsSearch keeps Alice (name match)
and Dina (phone 9ALI7, matched case-insensitively) but not Bob, ordered by
name ascending; the empty search keeps every patient. -/
theorem C7_witness :
    noWildcard "ali" = true
    ∧ (view_patients stPatientsSearch "ali").Perm
        (stPatientsSearch.patients.filter
          (fun p => containsCI "ali" p.name || containsCI "ali" p.phone))
    ∧ List.Pairwise patRel (view_patients stPatientsSearch "ali")
    ∧ (view_patients stPatientsSearch "").Perm stPatientsSearch.patients := by
  obtain ⟨h1, h2, h3, _⟩ := C7_view_patients_search stPatientsSearch "ali" (by decide) (by decide)
  exact ⟨by decide, h1, h2, h3⟩

/-- C8: with no search term every stored appointment appears, and any result
row appearing before another has a lexicographically later date, or the same
date and a time no earlier, both compared as stored text; concretely the
row dated 2024-01-02 precedes the one dated 2024-01-01, and of the two rows
sharing 2024-01-02 the later time 11:00 comes first. -/
theorem C8_view_appointments_order (st : Store) :
    (view_appointments st "").Perm st.appointments
    ∧ (∀ i j : Fin (view_appointments st "").length, i < j →
        apptRel ((view_appointments st "").get i) ((view_appointments st "").get j))
    ∧ view_appointments stAppts "" = [appt3, appt2, appt1] := by
  refine ⟨?_, ?_, by decide⟩
  · rw [view_appointments, if_pos rfl]
    exact List.perm_insertionSort apptRel st.appointments
  · have hs : List.Pairwise apptRel (view_appointments st "") := by
      rw [view_appointments, if_pos rfl]
      exact List.sorted_insertionSort apptRel st.appointments
    exact List.pairwise_iff_get.mp hs

/-- C10: the single-record lookup joins medical_records to patients, so it is
NotFound exactly when either no record carries the id or the record that does
has a patient_id no patient row carries — an orphaned record is unreachable
through it.  Record ids are pairwise distinct by the primary key, taken as a
hypothesis. -/
theorem C10_view_medical_record_join (st : Store) (id : Nat)
    (hids : st.medical_records.Pairwise (fun a b => a.id ≠ b.id)) :
    view_medical_record st id = none ↔
      (∀ r ∈ st.medical_records, r.id ≠ id)
      ∨ (∃ r ∈ st.medical_records, r.id = id ∧ ∀ p ∈ st.patients, p.id ≠ r.patient_id) := by
  cases hf : st.medical_records.find? (fun r => r.id == id) with
  | none =>
    have hnone : ∀ r ∈ st.medical_records, r.id ≠ id := by
      intro r hr
      have := List.find?_eq_none.mp hf r hr
      simpa using this
    exact ⟨fun _ => Or.inl hnone, fun _ => by simp [view_medical_record, hf]⟩
  | some r =>
    have hr_mem : r ∈ st.medical_records := List.mem_of_find?_eq_some hf
    have hr_id : r.id = id := by simpa using List.find?_some hf
    have hsym : Symmetric (fun a b : MedicalRecord => a.id ≠ b.id) := fun a b h he => h he.symm
    have hru : ∀ {x : MedicalRecord}, x ∈ st.medical_records → x.id = id → x = r := by
      intro x hx hxid
      by_contra hne
      exact (hids.forall hsym hx hr_mem hne) (hxid.trans hr_id.symm)
    cases hp : st.patients.find? (fun p => p.id == r.patient_id) with
    | none =>
      have hpn : ∀ p ∈ st.patients, p.id ≠ r.patient_id := by
        intro p hpp
        have := List.find?_eq_none.mp hp p hpp
        simpa using this
      exact ⟨fun _ => Or.inr ⟨r, hr_mem, hr_id, hpn⟩,
        fun _ => by simp [view_medical_record, hf, hp]⟩
    | some p =>
      have hview : view_medical_record st id = some (r, p.name) := by
        simp [view_medical_record, hf, hp]
      have hp_mem : p ∈ st.patients := List.mem_of_find?_eq_some hp
      have hp_id : p.id = r.patient_id := by simpa using List.find?_some hp
      constructor
      · intro hn
        rw [hview] at hn
        cases hn
      · rintro (hnone | ⟨x, hx, hxid, hxp⟩)
        · exact absurd hr_id (hnone r hr_mem)
        · have hxr := hru hx hxid
          rw [hxr] at hxp
          exact absurd hp_id (hxp p hp_mem)

/-- C10 witness: stOrphanOnly holds one record (id 3) whose patient_id 2
resolves to no patient, so the lookup of id 3 is NotFound, and id 99 is
NotFound because no record carries it. -/
theorem C10_witness :
    view_medical_record stOrphanOnly 3 = none
    ∧ view_medical_record stOrphanOnly 99 = none := by
  have h1 := (C10_view_medical_record_join stOrphanOnly 3 (by decide)).mpr
    (Or.inr ⟨recOrphan, by decide, by decide, by decide⟩)
  have h2 := (C10_view_medical_record_join stOrphanOnly 99 (by decide)).mpr (Or.inl (by decide))
  exact ⟨h1, h2⟩

end HospitalApp
